import Mathlib

/-!
Verification of the HiOCR JNI bridge (`src/main/cpp/native-lib.cpp`).

The bridge exposes four entry points across the JNI boundary:
`createNativeAnalyzer`, `destroyNativeAnalyzer`, `analyzeTextDataNative`
and `decryptionDataNative`.  We embed each entry point as a Lean function
that returns its result together with a trace of the observable effects it
performs (local-reference acquisition/release, native allocations and
deallocations, foreign-exception raise/clear, calls into the native engine,
diagnostic logs).  Resource and exception invariants are then stated as
properties of those traces.
-/

namespace HiOCR

/-- Modelled from the spec (§3 Data Model): the native `HiRect` value,
four double-precision fields.  The header `HiTextInfo.h` that declares it is
not under `src/`; the bridge only copies the four fields, so doubles are
represented by Lean `Float`. -/
structure HiRect where
  x : Float
  y : Float
  width : Float
  height : Float

/-- Modelled from the spec (§3 Data Model): the native `HiTextInfo` record,
a text string plus a bounding rectangle, constructed by the bridge as
`new HiTextInfo(std::string(textChars), rect)`.  Its header is not under
`src/`. -/
structure HiTextInfo where
  text : String
  rect : HiRect

/-- Outcome of a JNI accessor call on a foreign object: a non-null value,
a null result with no exception, or a raised foreign exception (in JNI a
throwing call returns null and sets the pending-exception flag). -/
inductive JCallResult (α : Type) where
  | value (a : α)
  | nullRes
  | throws

/-- A foreign `HiTextInfo` object as seen through its two accessors:
the behavior of `getBBox()` and of `getText()`. -/
structure HiTextInfoObj where
  bboxCall : JCallResult HiRect
  textCall : JCallResult String

/-- An element of the foreign `jobjectArray`: null, or an object. -/
abbrev ForeignElem := Option HiTextInfoObj

/-- Per-call JNI environment configuration: whether the per-call lookups
(`FindClass` for `HiTextInfo` and `HiRect`, `GetMethodID` for `getText` and
`getBBox`) succeed. -/
structure EnvCfg where
  textInfoClassOk : Bool
  rectClassOk : Bool
  getTextMethodOk : Bool
  getBBoxMethodOk : Bool

/-- Observable effects of one bridge call. -/
inductive Event where
  /-- A diagnostic written to `std::cerr`. -/
  | logError (msg : String)
  /-- A foreign exception becomes pending. -/
  | raiseExc
  /-- `env->ExceptionDescribe()`. -/
  | describeExc
  /-- `env->ExceptionClear()`. -/
  | clearExc
  /-- `env->GetObjectArrayElement(textInfoArray, i)`. -/
  | getElement (i : Nat)
  /-- A JNI local reference is obtained. -/
  | newLocalRef
  /-- `env->DeleteLocalRef(...)`. -/
  | deleteLocalRef
  /-- `env->GetStringUTFChars(...)`. -/
  | getUTFChars
  /-- `env->ReleaseStringUTFChars(...)`. -/
  | releaseUTFChars
  /-- `new HiTextInfo(...)`: a native TextRecord copy is allocated. -/
  | newNative (r : HiTextInfo)
  /-- `delete textInfo`: a native TextRecord copy is released. -/
  | deleteNative (r : HiTextInfo)
  /-- `analyzer->analyzeTextData(textPointers)` on the engine behind `h`. -/
  | engineAnalyze (h : Int) (batch : List HiTextInfo)
  /-- `analyzer->decryptionData(inputStr)` on the engine behind `h`. -/
  | engineDecrypt (h : Int) (input : String)
  /-- `new HiOCRAnalyzer(scanType, licenseKeyStr)`. -/
  | engineCreate (scanType : Int) (licenseKey : String)
  /-- `delete analyzer` on the engine behind `h`. -/
  | engineDestroy (h : Int)
  /-- `env->NewStringUTF(...)`. -/
  | newStringUTF (s : String)

/-- Modelled from the spec (§6): the native engine's analysis entry point
`analyzeTextData(ownedRecords) -> string`, keyed by the engine instance the
handle identifies.  `HiOCRAnalyzer.h` is not under `src/`; per the interface
contract the call returns a result string (failure is an error result, opaque
to the bridge). -/
abbrev EngineAnalyzeFn := Int → List HiTextInfo → String

/-- Modelled from the spec (§6): the native engine's decryption entry point
`decryptionData(string) -> string`, keyed by the engine instance the handle
identifies.  `HiOCRAnalyzer.h` is not under `src/`. -/
abbrev EngineDecryptFn := Int → String → String

/-- Result of processing one array element in the extraction loop. -/
structure ElemResult where
  /-- The owned native copy, when the element was successfully extracted. -/
  record : Option HiTextInfo
  /-- The effects performed for this element. -/
  events : List Event

/-- One iteration of the extraction loop of
`Java_com_mwkg_hiocr_HiOCR_analyzeTextDataNative` (native-lib.cpp:69-107),
translated branch by branch:
retrieve the element (skip if null); call `getBBox` (on null result or
exception: describe, clear, delete the element ref, skip); call `getText`
(on null result or exception: describe, clear, delete the element and bbox
refs, skip); otherwise read the text chars and the four double fields,
allocate one native `HiTextInfo`, release the UTF chars and delete the
element and bbox local references.  The `text` jstring local reference is
not deleted by the source on the success path. -/
def processElem (i : Nat) (e : ForeignElem) : ElemResult :=
  match e with
  | none =>
      { record := none
        events := [.getElement i,
                   .logError "Failed to retrieve HiTextInfo object"] }
  | some obj =>
      match obj.bboxCall with
      | .throws =>
          { record := none
            events := [.getElement i, .newLocalRef,
                       .raiseExc, .describeExc, .clearExc, .deleteLocalRef] }
      | .nullRes =>
          { record := none
            events := [.getElement i, .newLocalRef,
                       .describeExc, .clearExc, .deleteLocalRef] }
      | .value rect =>
          match obj.textCall with
          | .throws =>
              { record := none
                events := [.getElement i, .newLocalRef, .newLocalRef,
                           .raiseExc, .describeExc, .clearExc,
                           .deleteLocalRef, .deleteLocalRef] }
          | .nullRes =>
              { record := none
                events := [.getElement i, .newLocalRef, .newLocalRef,
                           .describeExc, .clearExc,
                           .deleteLocalRef, .deleteLocalRef] }
          | .value txt =>
              let info : HiTextInfo := { text := txt, rect := rect }
              { record := some info
                events := [.getElement i, .newLocalRef, .newLocalRef,
                           .newLocalRef, .getUTFChars,
                           .newNative info, .releaseUTFChars,
                           .deleteLocalRef, .deleteLocalRef] }

/-- The extraction loop over the array elements starting at index `i`:
the vector of owned native records in order, and the concatenated
per-element effects. -/
def extractFrom (i : Nat) : List ForeignElem → List HiTextInfo × List Event
  | [] => ([], [])
  | e :: rest =>
      let r := processElem i e
      let tail := extractFrom (i + 1) rest
      (r.record.toList ++ tail.1, r.events ++ tail.2)

/-- Shallow embedding of `Java_com_mwkg_hiocr_HiOCR_analyzeTextDataNative`
(native-lib.cpp:37-120).  A null `jobjectArray` is `none`; a null `jstring`
return is `none`.  Control flow: zero-handle check, null-array check,
`FindClass` for both classes (failure raises; the source then describes and
clears and returns null), `GetMethodID` for both accessors (failure raises;
the source returns null without clearing), then the extraction loop, the
engine call, the cleanup loop deleting every allocated native record, and
`NewStringUTF` of the result. -/
def analyzeTextDataNative (analyzeFn : EngineAnalyzeFn) (cfg : EnvCfg)
    (handle : Int) (textInfoArray : Option (List ForeignElem)) :
    Option String × List Event :=
  if handle = 0 then
    (none, [.logError "Handle is null"])
  else
    match textInfoArray with
    | none => (none, [.logError "Array is null"])
    | some arr =>
        let classEvents :=
          (if cfg.textInfoClassOk then [] else [Event.raiseExc]) ++
          (if cfg.rectClassOk then [] else [Event.raiseExc])
        if !(cfg.textInfoClassOk && cfg.rectClassOk) then
          (none, classEvents ++ [.describeExc, .clearExc])
        else
          let methodEvents :=
            (if cfg.getTextMethodOk then [] else [Event.raiseExc]) ++
            (if cfg.getBBoxMethodOk then [] else [Event.raiseExc])
          if !(cfg.getTextMethodOk && cfg.getBBoxMethodOk) then
            (none, classEvents ++ methodEvents ++ [.logError "Method ID is null"])
          else
            let ext := extractFrom 0 arr
            let result := analyzeFn handle ext.1
            (some result,
              classEvents ++ methodEvents ++ ext.2 ++
                [.engineAnalyze handle ext.1] ++
                ext.1.map Event.deleteNative ++
                [.newStringUTF result])

/-- Shallow embedding of `Java_com_mwkg_hiocr_HiOCR_decryptionDataNative`
(native-lib.cpp:122-137): zero-handle check, copy the foreign string into a
native string, delegate to the engine, convert the result back. -/
def decryptionDataNative (decryptFn : EngineDecryptFn)
    (handle : Int) (input : String) : Option String × List Event :=
  if handle = 0 then
    (none, [.logError "Handle is null"])
  else
    let out := decryptFn handle input
    (some out, [.getUTFChars, .releaseUTFChars,
                .engineDecrypt handle input, .newStringUTF out])

/-- Shallow embedding of `Java_com_mwkg_hiocr_HiOCR_createNativeAnalyzer`
(native-lib.cpp:28-35): copy the license key string, allocate one engine
configured with `(scanType, licenseKey)`, return its address as the handle.
`freshAddr` stands for the address returned by `new HiOCRAnalyzer(...)`;
C++ `new` never yields a null pointer (allocation failure throws instead of
returning), which theorems express as the hypothesis `freshAddr ≠ 0`. -/
def createNativeAnalyzer (freshAddr : Int) (scanType : Int)
    (licenseKey : String) : Int × List Event :=
  (freshAddr, [.getUTFChars, .releaseUTFChars,
               .engineCreate scanType licenseKey])

/-- Shallow embedding of `Java_com_mwkg_hiocr_HiOCR_destroyNativeAnalyzer`
(native-lib.cpp:18-26): zero-handle check with a diagnostic, otherwise
`delete` the engine instance behind the handle. -/
def destroyNativeAnalyzer (handle : Int) : List Event :=
  if handle = 0 then
    [.logError "Handle is null"]
  else
    [.engineDestroy handle]

/-! ### Trace observations -/

/-- The native TextRecord copy an event allocates, if any. -/
def Event.created? : Event → Option HiTextInfo
  | .newNative r => some r
  | _ => none

/-- The native TextRecord copy an event releases, if any. -/
def Event.deleted? : Event → Option HiTextInfo
  | .deleteNative r => some r
  | _ => none

/-- Contribution of an event to the number of live JNI local references. -/
def Event.localDelta : Event → Int
  | .newLocalRef => 1
  | .deleteLocalRef => -1
  | _ => 0

/-- The native TextRecord copies allocated in a trace, in order. -/
def createdNatives (tr : List Event) : List HiTextInfo :=
  tr.filterMap Event.created?

/-- The native TextRecord copies released in a trace, in order. -/
def deletedNatives (tr : List Event) : List HiTextInfo :=
  tr.filterMap Event.deleted?

/-- Net number of live JNI local references after a trace:
`newLocalRef` counts +1, `deleteLocalRef` counts -1. -/
def localBalance (tr : List Event) : Int :=
  (tr.map Event.localDelta).sum

/-- Whether an event is a call into the native engine. -/
def isEngineCall : Event → Bool
  | .engineAnalyze _ _ => true
  | .engineDecrypt _ _ => true
  | .engineCreate _ _ => true
  | .engineDestroy _ => true
  | _ => false

/-- Whether an event is specifically the engine's analysis call. -/
def isEngineAnalyze : Event → Bool
  | .engineAnalyze _ _ => true
  | _ => false

/-- Whether an event retrieves an array element. -/
def isGetElement : Event → Bool
  | .getElement _ => true
  | _ => false

/-- The analysis batch an event hands to the engine, if any. -/
def Event.batch? : Event → Option (List HiTextInfo)
  | .engineAnalyze _ b => some b
  | _ => none

/-- The engine-construction parameters of an event, if any. -/
def Event.creation? : Event → Option (Int × String)
  | .engineCreate s k => some (s, k)
  | _ => none

/-- The batches handed to the engine's analysis entry point in a trace. -/
def engineBatches (tr : List Event) : List (List HiTextInfo) :=
  tr.filterMap Event.batch?

/-- The engine constructions performed in a trace, with their parameters. -/
def engineCreations (tr : List Event) : List (Int × String) :=
  tr.filterMap Event.creation?

/-- Pending-exception flag after a trace, starting from state `p`:
`raiseExc` sets it, `clearExc` clears it. -/
def pendingFrom (p : Bool) : List Event → Bool
  | [] => p
  | e :: rest =>
      pendingFrom
        (match e with
         | .raiseExc => true
         | .clearExc => false
         | _ => p) rest

/-- The prefix of a trace strictly before its first engine call. -/
def preEngine : List Event → List Event
  | [] => []
  | e :: rest => if isEngineCall e then [] else e :: preEngine rest

/-- Whether a foreign array element is well formed: a non-null element whose
`getBBox` and `getText` calls both return non-null values without raising. -/
def wellFormedElem : ForeignElem → Bool
  | none => false
  | some obj =>
      (match obj.bboxCall with
       | .value _ => true
       | _ => false) &&
      (match obj.textCall with
       | .value _ => true
       | _ => false)

/-- The native record an element yields, independent of its index. -/
def elemRecord : ForeignElem → Option HiTextInfo
  | none => none
  | some obj =>
      match obj.bboxCall, obj.textCall with
      | .value rect, .value txt => some { text := txt, rect := rect }
      | _, _ => none

/-! ### Helper lemmas -/

theorem processElem_record (i : Nat) (e : ForeignElem) :
    (processElem i e).record = elemRecord e := by
  rcases e with _ | ⟨bc, tc⟩
  · rfl
  · cases bc <;> cases tc <;> rfl

theorem elemRecord_isSome (e : ForeignElem) :
    (elemRecord e).isSome = wellFormedElem e := by
  rcases e with _ | ⟨bc, tc⟩
  · rfl
  · cases bc <;> cases tc <;> rfl

theorem extractFrom_fst (i : Nat) (es : List ForeignElem) :
    (extractFrom i es).1 = es.filterMap elemRecord := by
  induction es generalizing i with
  | nil => rfl
  | cons e rest ih =>
      simp only [extractFrom, List.filterMap_cons, processElem_record]
      cases h : elemRecord e <;> simp [h, ih]

theorem createdNatives_processElem (i : Nat) (e : ForeignElem) :
    createdNatives (processElem i e).events = (elemRecord e).toList := by
  rcases e with _ | ⟨bc, tc⟩
  · rfl
  · cases bc <;> cases tc <;> rfl

theorem deletedNatives_processElem (i : Nat) (e : ForeignElem) :
    deletedNatives (processElem i e).events = [] := by
  rcases e with _ | ⟨bc, tc⟩
  · rfl
  · cases bc <;> cases tc <;> rfl

theorem createdNatives_extractFrom (i : Nat) (es : List ForeignElem) :
    createdNatives (extractFrom i es).2 = (extractFrom i es).1 := by
  induction es generalizing i with
  | nil => rfl
  | cons e rest ih =>
      have h1 := createdNatives_processElem i e
      have h2 := ih (i + 1)
      simp only [extractFrom, createdNatives, List.filterMap_append] at h1 h2 ⊢
      rw [h1, h2, processElem_record]

theorem deletedNatives_extractFrom (i : Nat) (es : List ForeignElem) :
    deletedNatives (extractFrom i es).2 = [] := by
  induction es generalizing i with
  | nil => rfl
  | cons e rest ih =>
      have h1 := deletedNatives_processElem i e
      have h2 := ih (i + 1)
      simp only [extractFrom, deletedNatives, List.filterMap_append] at h1 h2 ⊢
      rw [h1, h2]
      rfl

theorem deletedNatives_map_deleteNative (l : List HiTextInfo) :
    deletedNatives (l.map Event.deleteNative) = l := by
  induction l with
  | nil => rfl
  | cons r rest ih =>
      simp only [List.map_cons, deletedNatives, List.filterMap_cons] at ih ⊢
      simp [Event.deleted?, ih]

theorem createdNatives_map_deleteNative (l : List HiTextInfo) :
    createdNatives (l.map Event.deleteNative) = [] := by
  induction l with
  | nil => rfl
  | cons r rest ih =>
      simp only [List.map_cons, createdNatives, List.filterMap_cons] at ih ⊢
      simp [Event.created?, ih]

theorem pendingFrom_append (p : Bool) (a b : List Event) :
    pendingFrom p (a ++ b) = pendingFrom (pendingFrom p a) b := by
  induction a generalizing p with
  | nil => rfl
  | cons e rest ih =>
      simp only [List.cons_append, pendingFrom]
      exact ih _

theorem pendingFrom_processElem (i : Nat) (e : ForeignElem) :
    pendingFrom false (processElem i e).events = false := by
  rcases e with _ | ⟨bc, tc⟩
  · rfl
  · cases bc <;> cases tc <;> rfl

theorem pendingFrom_extractFrom (i : Nat) (es : List ForeignElem) :
    pendingFrom false (extractFrom i es).2 = false := by
  induction es generalizing i with
  | nil => rfl
  | cons e rest ih =>
      simp only [extractFrom, pendingFrom_append, pendingFrom_processElem, ih]

theorem isEngineCall_processElem (i : Nat) (e : ForeignElem) :
    ∀ ev ∈ (processElem i e).events, isEngineCall ev = false := by
  rcases e with _ | ⟨bc, tc⟩
  · intro ev hev; fin_cases hev <;> rfl
  · cases bc <;> cases tc <;> (intro ev hev; fin_cases hev <;> rfl)

theorem isEngineCall_extractFrom (i : Nat) (es : List ForeignElem) :
    ∀ ev ∈ (extractFrom i es).2, isEngineCall ev = false := by
  induction es generalizing i with
  | nil => intro ev hev; cases hev
  | cons e rest ih =>
      intro ev hev
      simp only [extractFrom, List.mem_append] at hev
      rcases hev with h | h
      · exact isEngineCall_processElem i e ev h
      · exact ih (i + 1) ev h

theorem preEngine_append_of_none (a b : List Event)
    (h : ∀ ev ∈ a, isEngineCall ev = false) :
    preEngine (a ++ b) = a ++ preEngine b := by
  induction a with
  | nil => rfl
  | cons e rest ih =>
      have he : isEngineCall e = false := h e (List.mem_cons_self e rest)
      have ih' := ih fun ev hev => h ev (List.mem_cons_of_mem e hev)
      simp [preEngine, he, ih']

theorem createdNatives_nil : createdNatives [] = [] := rfl

theorem createdNatives_cons (e : Event) (tr : List Event) :
    createdNatives (e :: tr) =
      (Event.created? e).toList ++ createdNatives tr := by
  simp only [createdNatives, List.filterMap_cons]
  cases he : Event.created? e <;> simp

theorem createdNatives_append (a b : List Event) :
    createdNatives (a ++ b) = createdNatives a ++ createdNatives b := by
  simp [createdNatives]

theorem deletedNatives_nil : deletedNatives [] = [] := rfl

theorem deletedNatives_cons (e : Event) (tr : List Event) :
    deletedNatives (e :: tr) =
      (Event.deleted? e).toList ++ deletedNatives tr := by
  simp only [deletedNatives, List.filterMap_cons]
  cases he : Event.deleted? e <;> simp

theorem deletedNatives_append (a b : List Event) :
    deletedNatives (a ++ b) = deletedNatives a ++ deletedNatives b := by
  simp [deletedNatives]

theorem engineBatches_nil : engineBatches [] = [] := rfl

theorem engineBatches_cons (e : Event) (tr : List Event) :
    engineBatches (e :: tr) =
      (Event.batch? e).toList ++ engineBatches tr := by
  simp only [engineBatches, List.filterMap_cons]
  cases he : Event.batch? e <;> simp

theorem engineBatches_append (a b : List Event) :
    engineBatches (a ++ b) = engineBatches a ++ engineBatches b := by
  simp [engineBatches]

theorem engineBatches_processElem (i : Nat) (e : ForeignElem) :
    engineBatches (processElem i e).events = [] := by
  rcases e with _ | ⟨bc, tc⟩
  · rfl
  · cases bc <;> cases tc <;> rfl

theorem engineBatches_extractFrom (i : Nat) (es : List ForeignElem) :
    engineBatches (extractFrom i es).2 = [] := by
  induction es generalizing i with
  | nil => rfl
  | cons e rest ih =>
      have h1 := engineBatches_processElem i e
      have h2 := ih (i + 1)
      simp only [extractFrom, engineBatches, List.filterMap_append] at h1 h2 ⊢
      rw [h1, h2]
      rfl

theorem engineBatches_map_deleteNative (l : List HiTextInfo) :
    engineBatches (l.map Event.deleteNative) = [] := by
  induction l with
  | nil => rfl
  | cons r rest ih =>
      simp only [List.map_cons, engineBatches, List.filterMap_cons] at ih ⊢
      simp [Event.batch?, ih]

theorem localBalance_append (a b : List Event) :
    localBalance (a ++ b) = localBalance a + localBalance b := by
  simp [localBalance]

theorem length_filterMap_elemRecord (es : List ForeignElem) :
    (es.filterMap elemRecord).length +
      es.countP (fun e => !wellFormedElem e) = es.length := by
  induction es with
  | nil => rfl
  | cons e rest ih =>
      cases h : elemRecord e with
      | none =>
          have hw : wellFormedElem e = false := by
            rw [← elemRecord_isSome e, h]; rfl
          simp [List.filterMap_cons, List.countP_cons, h, hw]
          omega
      | some r =>
          have hw : wellFormedElem e = true := by
            rw [← elemRecord_isSome e, h]; rfl
          simp [List.filterMap_cons, List.countP_cons, h, hw]
          omega

/-! ### Claim theorems -/

/-- C1: for every `analyzeTextDataNative` call — over every engine behavior,
environment configuration, handle and input array — the native `HiTextInfo`
copies released during the call are exactly the copies created during it
(same records, same order), so every native TextRecord copy created during
the call is released before the call returns, on every exit path, including
for every possible outcome of the engine's analysis call. -/
theorem analyze_releases_every_native_copy (analyzeFn : EngineAnalyzeFn)
    (cfg : EnvCfg) (handle : Int) (arr : Option (List ForeignElem)) :
    deletedNatives (analyzeTextDataNative analyzeFn cfg handle arr).2 =
      createdNatives (analyzeTextDataNative analyzeFn cfg handle arr).2 := by
  rcases cfg with ⟨tc, rc, tm, bm⟩
  by_cases h : handle = 0
  · simp [analyzeTextDataNative, h, deletedNatives_cons, createdNatives_cons,
          deletedNatives_nil, createdNatives_nil, Event.created?, Event.deleted?]
  · rcases arr with _ | arr
    · simp [analyzeTextDataNative, h, deletedNatives_cons, createdNatives_cons,
            deletedNatives_nil, createdNatives_nil, Event.created?, Event.deleted?]
    · cases tc <;> cases rc <;> cases tm <;> cases bm <;>
        simp [analyzeTextDataNative, h, deletedNatives_append, createdNatives_append,
              deletedNatives_cons, createdNatives_cons,
              deletedNatives_nil, createdNatives_nil,
              deletedNatives_extractFrom, createdNatives_extractFrom,
              deletedNatives_map_deleteNative, createdNatives_map_deleteNative,
              Event.created?, Event.deleted?]

/-- C3: calling `analyzeTextDataNative` or `decryptionDataNative` with
handle = 0 returns null and the trace contains no call into the native
engine. -/
theorem zero_handle_returns_null_without_engine (analyzeFn : EngineAnalyzeFn)
    (cfg : EnvCfg) (arr : Option (List ForeignElem))
    (decryptFn : EngineDecryptFn) (input : String) :
    (analyzeTextDataNative analyzeFn cfg 0 arr).1 = none ∧
    (analyzeTextDataNative analyzeFn cfg 0 arr).2.countP isEngineCall = 0 ∧
    (decryptionDataNative decryptFn 0 input).1 = none ∧
    (decryptionDataNative decryptFn 0 input).2.countP isEngineCall = 0 := by
  refine ⟨?_, ?_, ?_, ?_⟩ <;>
    simp [analyzeTextDataNative, decryptionDataNative, isEngineCall]

/-- C4: calling `analyzeTextDataNative` with a non-zero handle and a null
record array returns null with only the diagnostic in the trace: no element
is retrieved and no call into the native engine is performed. -/
theorem null_array_returns_null_without_extraction
    (analyzeFn : EngineAnalyzeFn) (cfg : EnvCfg) (handle : Int)
    (h : handle ≠ 0) :
    analyzeTextDataNative analyzeFn cfg handle none =
      (none, [Event.logError "Array is null"]) ∧
    (analyzeTextDataNative analyzeFn cfg handle none).2.countP isEngineCall
      = 0 ∧
    (analyzeTextDataNative analyzeFn cfg handle none).2.countP isGetElement
      = 0 := by
  refine ⟨?_, ?_, ?_⟩ <;>
    simp [analyzeTextDataNative, h, isEngineCall, isGetElement]

/-- C4 witness: handle 1 with a null array. -/
theorem null_array_returns_null_without_extraction_witness :
    analyzeTextDataNative (fun _ _ => "out") ⟨true, true, true, true⟩ 1 none =
      (none, [Event.logError "Array is null"]) :=
  (null_array_returns_null_without_extraction (fun _ _ => "out")
    ⟨true, true, true, true⟩ 1 (by decide)).1

/-- C2: the extraction loop's output is the in-order image of the
well-formed elements (stable skip: `elemRecord` is `some` exactly on
well-formed elements), its length never exceeds the input length, and a
batch with exactly one malformed element among N yields N - 1 records. -/
theorem extraction_skips_malformed_stably (arr : List ForeignElem) :
    (arr.countP (fun e => !wellFormedElem e) = 1 →
      (extractFrom 0 arr).1.length + 1 = arr.length) ∧
    (extractFrom 0 arr).1 = arr.filterMap elemRecord ∧
    (∀ e : ForeignElem, (elemRecord e).isSome = wellFormedElem e) ∧
    (extractFrom 0 arr).1.length ≤ arr.length := by
  have hlen := length_filterMap_elemRecord arr
  have hfst := extractFrom_fst 0 arr
  refine ⟨?_, hfst, elemRecord_isSome, ?_⟩
  · intro h1
    rw [hfst]
    omega
  · rw [hfst]
    omega

/-- C2 witness: one malformed element (a null array slot) among two
well-formed ones yields two records. -/
theorem extraction_skips_malformed_stably_witness :
    ([some ⟨JCallResult.value ⟨0, 0, 0, 0⟩, JCallResult.value "a"⟩, none,
      some ⟨JCallResult.value ⟨1, 1, 1, 1⟩, JCallResult.value "b"⟩] :
        List ForeignElem).countP (fun e => !wellFormedElem e) = 1 ∧
    (extractFrom 0
      [some ⟨JCallResult.value ⟨0, 0, 0, 0⟩, JCallResult.value "a"⟩, none,
       some ⟨JCallResult.value ⟨1, 1, 1, 1⟩, JCallResult.value "b"⟩]).1.length
      + 1 = 3 :=
  ⟨rfl, (extraction_skips_malformed_stably _).1 rfl⟩

/-- C5: with a valid handle, successful per-call lookups and a batch in
which every record is well formed, the batch handed to the engine's
analysis entry point is exactly the extracted sequence, and its length
equals the input array's length: no silent drops. -/
theorem wellformed_batch_passed_in_full (analyzeFn : EngineAnalyzeFn)
    (cfg : EnvCfg) (handle : Int) (arr : List ForeignElem)
    (hh : handle ≠ 0)
    (hcfg : cfg.textInfoClassOk = true ∧ cfg.rectClassOk = true ∧
            cfg.getTextMethodOk = true ∧ cfg.getBBoxMethodOk = true)
    (hwf : ∀ e ∈ arr, wellFormedElem e = true) :
    engineBatches (analyzeTextDataNative analyzeFn cfg handle (some arr)).2 =
      [(extractFrom 0 arr).1] ∧
    (extractFrom 0 arr).1.length = arr.length := by
  rcases cfg with ⟨tc, rc, tm, bm⟩
  obtain ⟨h1, h2, h3, h4⟩ := hcfg
  subst h1 h2 h3 h4
  constructor
  · simp [analyzeTextDataNative, hh, engineBatches_append, engineBatches_cons,
          engineBatches_nil, engineBatches_extractFrom,
          engineBatches_map_deleteNative, Event.batch?]
  · have hlen := length_filterMap_elemRecord arr
    have hcount : arr.countP (fun e => !wellFormedElem e) = 0 := by
      rw [List.countP_eq_zero]
      intro e he
      simp [hwf e he]
    rw [extractFrom_fst 0 arr]
    omega

/-- C5 witness: handle 1, all lookups succeed, two well-formed records. -/
theorem wellformed_batch_passed_in_full_witness :
    (extractFrom 0
      [some ⟨JCallResult.value ⟨0, 0, 0, 0⟩, JCallResult.value "a"⟩,
       some ⟨JCallResult.value ⟨1, 1, 1, 1⟩, JCallResult.value "b"⟩]).1.length
      = 2 :=
  (wellformed_batch_passed_in_full (fun _ _ => "out") ⟨true, true, true, true⟩
    1
    [some ⟨JCallResult.value ⟨0, 0, 0, 0⟩, JCallResult.value "a"⟩,
     some ⟨JCallResult.value ⟨1, 1, 1, 1⟩, JCallResult.value "b"⟩]
    (by decide) ⟨rfl, rfl, rfl, rfl⟩
    (by intro e he; fin_cases he <;> rfl)).2

/-- C7 counterexample: for a well-formed element the extraction loop leaves
one foreign local reference unreleased when it moves on — the `text`
jstring obtained from `getText` is never passed to `DeleteLocalRef` on the
success path (native-lib.cpp:99-107), so the claim that every
foreign-side reference taken for an element is released before the next
element fails on any successfully extracted element. -/
theorem processElem_leaves_text_ref_live :
    localBalance (processElem 0 (some ⟨JCallResult.value ⟨0, 0, 0, 0⟩,
        JCallResult.value "ok"⟩)).events = 1 ∧
    localBalance (processElem 0 (some ⟨JCallResult.value ⟨0, 0, 0, 0⟩,
        JCallResult.value "ok"⟩)).events ≠ 0 := by
  have h1 : localBalance (processElem 0 (some ⟨JCallResult.value ⟨0, 0, 0, 0⟩,
      JCallResult.value "ok"⟩)).events = 1 := rfl
  exact ⟨h1, by rw [h1]; exact one_ne_zero⟩

/-- C7 (amended): for every element processed during extraction, the
references taken for it are released before the loop moves to the next
element, except that a successfully extracted element leaves exactly one
reference live — the `text` jstring local reference, which the source never
deletes; skipped elements release every reference they took. -/
theorem processElem_releases_refs_except_text (i : Nat) (e : ForeignElem) :
    localBalance (processElem i e).events =
      if (processElem i e).record.isSome then 1 else 0 := by
  rcases e with _ | ⟨bc, tc⟩
  · rfl
  · cases bc <;> cases tc <;> rfl

theorem preEngine_extract_engine (i : Nat) (es : List ForeignElem)
    (h : Int) (b : List HiTextInfo) (rest : List Event) :
    preEngine ((extractFrom i es).2 ++ Event.engineAnalyze h b :: rest) =
      (extractFrom i es).2 := by
  rw [preEngine_append_of_none _ _ (isEngineCall_extractFrom i es)]
  simp [preEngine, isEngineCall]

theorem analyze_trace_ok (analyzeFn : EngineAnalyzeFn) (handle : Int)
    (arr : List ForeignElem) (hh : handle ≠ 0) :
    (analyzeTextDataNative analyzeFn ⟨true, true, true, true⟩ handle
        (some arr)).2 =
      (extractFrom 0 arr).2 ++
        Event.engineAnalyze handle (extractFrom 0 arr).1 ::
          ((extractFrom 0 arr).1.map Event.deleteNative ++
           [Event.newStringUTF (analyzeFn handle (extractFrom 0 arr).1)]) := by
  simp [analyzeTextDataNative, hh]

/-- C6: foreign exceptions raised by element accessors are confined: each
element's extraction step ends with no pending exception regardless of how
its accessors behave (raised exceptions are cleared at the point of
occurrence, so none reaches the extraction of subsequent elements); an
element whose accessor raises contributes no record (omission); and
whenever the engine's analysis call appears in an `analyzeTextDataNative`
trace, the whole trace before it leaves no pending exception. -/
theorem extraction_confines_foreign_exceptions :
    (∀ (i : Nat) (e : ForeignElem),
        pendingFrom false (processElem i e).events = false) ∧
    (∀ (i : Nat) (obj : HiTextInfoObj),
        obj.bboxCall = JCallResult.throws ∨
          obj.textCall = JCallResult.throws →
        (processElem i (some obj)).record = none) ∧
    (∀ (analyzeFn : EngineAnalyzeFn) (cfg : EnvCfg) (handle : Int)
        (arr : Option (List ForeignElem)),
        (analyzeTextDataNative analyzeFn cfg handle arr).2.any isEngineAnalyze
          = true →
        pendingFrom false
          (preEngine (analyzeTextDataNative analyzeFn cfg handle arr).2)
          = false) := by
  refine ⟨pendingFrom_processElem, ?_, ?_⟩
  · intro i obj h
    rcases obj with ⟨bc, tc⟩
    cases bc <;> cases tc <;> try rfl
    rcases h with h | h <;> simp at h
  · intro analyzeFn cfg handle arr hany
    rcases cfg with ⟨tc, rc, tm, bm⟩
    by_cases hh : handle = 0
    · simp [analyzeTextDataNative, hh, isEngineAnalyze] at hany
    · rcases arr with _ | arr
      · simp [analyzeTextDataNative, hh, isEngineAnalyze] at hany
      · cases tc <;> cases rc <;> cases tm <;> cases bm <;>
          first
            | (rw [analyze_trace_ok analyzeFn handle arr hh,
                   preEngine_extract_engine]
               exact pendingFrom_extractFrom 0 arr)
            | simp [analyzeTextDataNative, hh, isEngineAnalyze] at hany

/-- C6 witness: a throwing `getBBox` ends clear and yields no record; a
reached engine call has an exception-free prefix. -/
theorem extraction_confines_foreign_exceptions_witness :
    pendingFrom false (processElem 0 (some ⟨JCallResult.throws,
        JCallResult.value "t"⟩)).events = false ∧
    (processElem 0 (some ⟨JCallResult.throws, JCallResult.value "t"⟩)).record
      = none ∧
    pendingFrom false (preEngine (analyzeTextDataNative (fun _ _ => "r")
        ⟨true, true, true, true⟩ 1 (some [])).2) = false :=
  ⟨extraction_confines_foreign_exceptions.1 0 _,
   extraction_confines_foreign_exceptions.2.1 0 _ (Or.inl rfl),
   extraction_confines_foreign_exceptions.2.2 _ _ 1 _ rfl⟩

/-- C8: destroying handle 0 is a diagnostic-only no-op that releases no
engine instance, and destroying a non-zero handle releases exactly the
engine instance that handle identifies. -/
theorem destroy_zero_noop_nonzero_releases :
    destroyNativeAnalyzer 0 = [Event.logError "Handle is null"] ∧
    (destroyNativeAnalyzer 0).countP isEngineCall = 0 ∧
    ∀ h : Int, h ≠ 0 → destroyNativeAnalyzer h = [Event.engineDestroy h] := by
  refine ⟨rfl, rfl, fun h hh => ?_⟩
  simp [destroyNativeAnalyzer, hh]

/-- C8 witness: destroying handle 1 releases the engine behind handle 1. -/
theorem destroy_zero_noop_nonzero_releases_witness :
    destroyNativeAnalyzer 1 = [Event.engineDestroy 1] :=
  destroy_zero_noop_nonzero_releases.2.2 1 (by decide)

/-- C9: `createNativeAnalyzer` performs exactly one engine allocation,
configured with the given scan type and license key, and returns the
allocation's address as a non-zero handle (`new` cannot yield a null
pointer, expressed as the hypothesis on `freshAddr`); the source has no
branch that returns 0, so no failing execution exists in the model. -/
theorem create_allocates_one_configured_engine (freshAddr scanType : Int)
    (licenseKey : String) (h : freshAddr ≠ 0) :
    (createNativeAnalyzer freshAddr scanType licenseKey).1 ≠ 0 ∧
    engineCreations (createNativeAnalyzer freshAddr scanType licenseKey).2 =
      [(scanType, licenseKey)] :=
  ⟨h, rfl⟩

/-- C9 witness: allocation at address 1 with scan type 2 and key "key". -/
theorem create_allocates_one_configured_engine_witness :
    (createNativeAnalyzer 1 2 "key").1 ≠ 0 ∧
    engineCreations (createNativeAnalyzer 1 2 "key").2 = [(2, "key")] :=
  create_allocates_one_configured_engine 1 2 "key" (by decide)

/-- C10: when any of the per-call lookups (either `FindClass` or either
`GetMethodID`) fails, `analyzeTextDataNative` returns null with a trace
containing no element retrieval, no native TextRecord allocation and no
call into the native engine. -/
theorem lookup_failure_aborts_before_extraction
    (analyzeFn : EngineAnalyzeFn) (cfg : EnvCfg) (handle : Int)
    (arr : List ForeignElem) (hh : handle ≠ 0)
    (hcfg : ¬(cfg.textInfoClassOk = true ∧ cfg.rectClassOk = true ∧
              cfg.getTextMethodOk = true ∧ cfg.getBBoxMethodOk = true)) :
    (analyzeTextDataNative analyzeFn cfg handle (some arr)).1 = none ∧
    (analyzeTextDataNative analyzeFn cfg handle (some arr)).2.countP
      isGetElement = 0 ∧
    createdNatives (analyzeTextDataNative analyzeFn cfg handle (some arr)).2
      = [] ∧
    (analyzeTextDataNative analyzeFn cfg handle (some arr)).2.countP
      isEngineCall = 0 := by
  rcases cfg with ⟨tc, rc, tm, bm⟩
  cases tc <;> cases rc <;> cases tm <;> cases bm <;>
    simp at hcfg <;>
    (refine ⟨?_, ?_, ?_, ?_⟩ <;>
      simp [analyzeTextDataNative, hh, isGetElement, isEngineCall,
            createdNatives_append, createdNatives_cons, createdNatives_nil,
            Event.created?, List.countP_append, List.countP_cons,
            List.countP_nil])

/-- C10 witness: handle 1, the `HiTextInfo` class lookup fails, a one-slot
array: the call returns null. -/
theorem lookup_failure_aborts_before_extraction_witness :
    (analyzeTextDataNative (fun _ _ => "out") ⟨false, true, true, true⟩ 1
      (some [none])).1 = none :=
  (lookup_failure_aborts_before_extraction (fun _ _ => "out")
    ⟨false, true, true, true⟩ 1 [none] (by decide) (by decide)).1

end HiOCR
